import Mathlib

/-!
Verification development for the log4cplus pattern layout core
(src/log4cplus/src/patternlayout.cxx).

Strings are modelled as `List Char`, C++ `int`/`long`/`clock_t`/`time_t` as
`Int` (overflow of the C++ types is not modelled).  External collaborators
(the C library clock constants and `strftime`, the `LogLevelManager`) are
modelled as an explicit `Platform` record of parameters.  C++ integer
division (truncation toward zero) is `Int.tdiv`; a division by zero is
undefined behaviour in C++ and is modelled by an `Option` result.
-/

/-- `FormattingInfo` from patternlayout.cxx: the width/precision/alignment
modifiers carried from the tokenizer to a converter. -/
structure FormattingInfo where
  minLen : Int
  maxLen : Int
  leftAlign : Bool
  deriving DecidableEq, Repr

/-- `FormattingInfo::reset()`: `minLen = -1`, `maxLen = 0x7FFFFFFF`,
`leftAlign = false`.  The default constructor calls `reset()`. -/
def FormattingInfo.reset : FormattingInfo :=
  { minLen := -1, maxLen := 0x7FFFFFFF, leftAlign := false }

/-- The nine sub-kinds of `BasicPatternConverter::Type`. -/
inductive BasicType where
  | relativeTime
  | thread
  | logLevel
  | ndc
  | message
  | newline
  | file
  | line
  | fullLocation
  deriving DecidableEq, Repr

/-- The closed hierarchy of `PatternConverter` subclasses.  Each converter
stores the copy of the `FormattingInfo` captured at construction. -/
inductive PatternConverter where
  | literal (info : FormattingInfo) (str : List Char)
  | basic (info : FormattingInfo) (type : BasicType)
  | logger (info : FormattingInfo) (precision : Int)
  | date (info : FormattingInfo) (format : List Char) (use_gmtime : Bool)
  deriving DecidableEq, Repr

/-- The `FormattingInfo` fields copied into the `PatternConverter` base. -/
def PatternConverter.info : PatternConverter → FormattingInfo
  | PatternConverter.literal fi _ => fi
  | PatternConverter.basic fi _ => fi
  | PatternConverter.logger fi _ => fi
  | PatternConverter.date fi _ _ => fi

/-- `LiteralPatternConverter(str)`: its base is built from a fresh
`FormattingInfo()` (i.e. the reset values). -/
def LiteralPatternConverter_mk (str : List Char) : PatternConverter :=
  PatternConverter.literal FormattingInfo.reset str

/-- The messages sent to the process-wide `getLogLog()` diagnostic channel,
as a structured datatype (payload = the data interpolated into the text). -/
inductive Diag where
  | dotStateError (pos : Nat) (c : Char)
  | unexpectedCharError (c : Char) (pos : Nat)
  | loggerDebug
  | fiDump (fi : FormattingInfo)
  | relativeTimeError
  | nullConverterError
  | emptyPatternWarn
  deriving DecidableEq, Repr

/-- `PatternParser::ParserState` (MINUS_STATE is declared but has no case in
the parse loop's switch). -/
inductive ParserState where
  | literalState
  | converterState
  | minusState
  | dotState
  | minState
  | maxState
  deriving DecidableEq, Repr

/-- Modelled from the spec: the external, read-only `InternalLoggingEvent`
record (level, dotted logger name, message, NDC string, thread id text,
optional source file, line number with sentinel -1, monotonic tick counter,
wall-clock timestamp).  `file` is a possibly-null C string, hence `Option`. -/
structure InternalLoggingEvent where
  ll : Int
  loggerName : List Char
  message : List Char
  ndc : List Char
  thread : List Char
  file : Option (List Char)
  line : Int
  clock_ticks : Int
  timestamp : Int
  deriving DecidableEq, Repr

/-- The external platform/environment: `CLOCKS_PER_SEC`, the C library
`strftime` into the fixed `BUFFER_SIZE` (30) byte buffer (`none` models a
zero return value: template rejected, output did not fit the buffer, or
empty output), and `LogLevelManager::toString`. -/
structure Platform where
  clocksPerSec : Int
  strftime : List Char → Bool → Int → Option (List Char)
  levelToString : Int → List Char

/-- `'0' <= c && c <= '9'`. -/
def isDigitChar (c : Char) : Bool :=
  '0' ≤ c ∧ c ≤ '9'

/-- `c - '0'` as a C++ int. -/
def digitVal (c : Char) : Int :=
  (c.toNat : Int) - 48

/-- The whitespace characters skipped by C `atoi`. -/
def isSpaceChar (c : Char) : Bool :=
  c = ' ' ∨ c = '\t' ∨ c = '\n' ∨ c = '\x0B' ∨ c = '\x0C' ∨ c = '\r'

/-- Digit-accumulation phase of C `atoi` (overflow is not modelled). -/
def atoiDigits : List Char → Int → Int
  | [], acc => acc
  | c :: rs, acc => if isDigitChar c then atoiDigits rs (acc * 10 + digitVal c) else acc

/-- C `atoi`: optional whitespace, optional sign, leading digits. -/
def atoi (s : List Char) : Int :=
  match s.dropWhile isSpaceChar with
  | '-' :: rs => - atoiDigits rs 0
  | '+' :: rs => atoiDigits rs 0
  | s1 => atoiDigits s1 0

/-- Decimal rendering of an `Int` by `std::ostream`. -/
def intToString (n : Int) : List Char :=
  if n < 0 then '-' :: Nat.toDigits 10 n.natAbs else Nat.toDigits 10 n.toNat

/-- Largest index `j ≤ i` with `s[j] = c` (the downward scan performed by
`std::string::rfind(c, i)` once the start index is in range). -/
def rfindFrom (s : List Char) (c : Char) : Nat → Option Nat
  | 0 => if s[0]? = some c then some 0 else none
  | i + 1 => if s[i + 1]? = some c then some (i + 1) else rfindFrom s c i

/-- `std::string::rfind(c, pos)` where `pos` is a C++ `int` converted to
`size_t`: a negative `int` converts to a value at least the string length,
and any start position at least the length is clamped to `length - 1`;
an empty string has no match. -/
def strRfind (s : List Char) (c : Char) (fromPos : Int) : Option Nat :=
  if s = [] then none
  else if fromPos < 0 ∨ (s.length : Int) ≤ fromPos then rfindFrom s c (s.length - 1)
  else rfindFrom s c fromPos.toNat

/-- The loop body of `LoggerPatternConverter::convert`:
`for(i = precision; i > 0; --i) { end = name.rfind('.', end - 1);
if (end == npos) return name; }`.  The running `end` is a C++ `int`. -/
def loggerDotLoop (name : List Char) : Int → Nat → Option Int
  | e, 0 => some e
  | e, p + 1 =>
    match strRfind name '.' (e - 1) with
    | none => none
    | some j => loggerDotLoop name (j : Int) p

/-- `LoggerPatternConverter::convert`: precision at most 0 returns the full
name; otherwise the dot loop starts from `end = len - 1` and on success the
result is `name.substr(end + 1)`. -/
def LoggerPatternConverter_convert (precision : Int) (name : List Char) : List Char :=
  if precision ≤ 0 then name
  else
    match loggerDotLoop name ((name.length : Int) - 1) precision.toNat with
    | none => name
    | some e => name.drop (e + 1).toNat

/-- `MILLIS_PER_SEC`. -/
def MILLIS_PER_SEC : Int := 1000

/-- The `CLOCKS_PER_MILLIS` member: `CLOCKS_PER_SEC / MILLIS_PER_SEC`
(C++ integer division, truncation toward zero). -/
def CLOCKS_PER_MILLIS (plat : Platform) : Int :=
  Int.tdiv plat.clocksPerSec MILLIS_PER_SEC

/-- The `BasicPatternConverter` constructor: it additionally logs an error
when built for relative time on a platform with `CLOCKS_PER_SEC <
MILLIS_PER_SEC` (second component = diagnostics emitted). -/
def BasicPatternConverter_mk (plat : Platform) (fi : FormattingInfo) (t : BasicType) :
    PatternConverter × List Diag :=
  (PatternConverter.basic fi t,
   if t = BasicType.relativeTime ∧ plat.clocksPerSec < MILLIS_PER_SEC
   then [Diag.relativeTimeError] else [])

/-- `BasicPatternConverter::convert`.  The relative-time case divides the
tick counter by the stored `CLOCKS_PER_MILLIS`; when that divisor is zero
the C++ division is undefined behaviour, modelled as `none`. -/
def BasicPatternConverter_convert (plat : Platform) (t : BasicType)
    (ev : InternalLoggingEvent) : Option (List Char) :=
  match t with
  | BasicType.logLevel => some (plat.levelToString ev.ll)
  | BasicType.ndc => some ev.ndc
  | BasicType.message => some ev.message
  | BasicType.newline => some ['\n']
  | BasicType.file => some (ev.file.getD [])
  | BasicType.relativeTime =>
    if CLOCKS_PER_MILLIS plat = 0 then none
    else some (intToString (Int.tdiv ev.clock_ticks (CLOCKS_PER_MILLIS plat)))
  | BasicType.thread => some ev.thread
  | BasicType.line =>
    if ev.line ≠ -1 then some (intToString ev.line) else some []
  | BasicType.fullLocation =>
    match ev.file with
    | some f => some (f ++ ':' :: intToString ev.line)
    | none => some [':']

/-- `DatePatternConverter::convert`: format the timestamp through
`strftime` (UTC via `gmtime` or local time via `localtime`); a zero result
yields the literal fallback text. -/
def DatePatternConverter_convert (plat : Platform) (format : List Char)
    (use_gmtime : Bool) (ev : InternalLoggingEvent) : List Char :=
  match plat.strftime format use_gmtime ev.timestamp with
  | some rendered => rendered
  | none => "INVALID DATE PATTERN".toList

/-- Dispatch of the virtual `convert` over the converter variants. -/
def PatternConverter.convert (plat : Platform) (ev : InternalLoggingEvent) :
    PatternConverter → Option (List Char)
  | PatternConverter.literal _ s => some s
  | PatternConverter.basic _ t => BasicPatternConverter_convert plat t ev
  | PatternConverter.logger _ p => some (LoggerPatternConverter_convert p ev.loggerName)
  | PatternConverter.date _ fmt gm => some (DatePatternConverter_convert plat fmt gm ev)

/-- The truncation/padding stage of `PatternConverter::formatAndAppend`:
`len > maxLen` keeps `s.substr(len - maxLen)` (the last `maxLen`
characters); `len < minLen` pads with spaces on the side selected by
`leftAlign`; otherwise the string passes through. -/
def applyFormat (fi : FormattingInfo) (s : List Char) : List Char :=
  if (s.length : Int) > fi.maxLen then s.drop ((s.length : Int) - fi.maxLen).toNat
  else if (s.length : Int) < fi.minLen then
    if fi.leftAlign then s ++ List.replicate (fi.minLen - (s.length : Int)).toNat ' '
    else List.replicate (fi.minLen - (s.length : Int)).toNat ' ' ++ s
  else s

/-- `PatternConverter::formatAndAppend`: convert, then apply the width
rules; the text appended to the output stream. -/
def PatternConverter.formatAndAppend (plat : Platform) (ev : InternalLoggingEvent)
    (pc : PatternConverter) : Option (List Char) :=
  (PatternConverter.convert plat ev pc).map (applyFormat pc.info)

/-- `PatternParser::extractOption`, acting on the remaining input `rest`
(the pattern from position `pos`).  Returns the option text, the remaining
input, and the updated position.  `find_first_of` returning `npos` becomes
`-1` once stored into the C++ `int end`, so `end > pos` then fails and the
position is unchanged. -/
def extractOption (rest : List Char) (pos : Nat) : List Char × List Char × Nat :=
  match rest with
  | c :: rs =>
    if c = Char.ofNat 123 then
      match rs.findIdx? (fun x => x = Char.ofNat 125) with
      | some i => (rs.take i, rs.drop (i + 1), pos + i + 2)
      | none => ([], c :: rs, pos)
    else ([], c :: rs, pos)
  | [] => ([], [], pos)

/-- `PatternParser::extractPrecisionOption`: `atoi` of the option text when
it is non-empty, else 0. -/
def extractPrecisionOption (rest : List Char) (pos : Nat) : Int × List Char × Nat :=
  let r := extractOption rest pos
  (if r.1 = [] then 0 else atoi r.1, r.2.1, r.2.2)

/-- `PatternParser::finalizeConverter(c)`: map the terminating character to
a converter (the C++ local `pc` is assigned in every switch branch, so the
result is never null).  Returns the converter, diagnostics emitted, the
remaining input and the updated position. -/
def finalizeConverter (plat : Platform) (c : Char) (fi : FormattingInfo)
    (currentLiteral : List Char) (rest : List Char) (pos : Nat) :
    PatternConverter × List Diag × List Char × Nat :=
  if c = 'c' then
    let r := extractPrecisionOption rest pos
    (PatternConverter.logger fi r.1, [Diag.loggerDebug, Diag.fiDump fi], r.2.1, r.2.2)
  else if c = 'd' ∨ c = 'D' then
    let r := extractOption rest pos
    let dOpt := if r.1 = [] then "%Y-%m-%d %H:%M:%S".toList else r.1
    (PatternConverter.date fi dOpt (c = 'd'), [], r.2.1, r.2.2)
  else if c = 'F' then
    let m := BasicPatternConverter_mk plat fi BasicType.file
    (m.1, m.2, rest, pos)
  else if c = 'l' then
    let m := BasicPatternConverter_mk plat fi BasicType.fullLocation
    (m.1, m.2, rest, pos)
  else if c = 'L' then
    let m := BasicPatternConverter_mk plat fi BasicType.line
    (m.1, m.2, rest, pos)
  else if c = 'm' then
    let m := BasicPatternConverter_mk plat fi BasicType.message
    (m.1, m.2, rest, pos)
  else if c = 'n' then
    let m := BasicPatternConverter_mk plat fi BasicType.newline
    (m.1, m.2, rest, pos)
  else if c = 'p' then
    let m := BasicPatternConverter_mk plat fi BasicType.logLevel
    (m.1, m.2, rest, pos)
  else if c = 'r' then
    let m := BasicPatternConverter_mk plat fi BasicType.relativeTime
    (m.1, m.2, rest, pos)
  else if c = 't' then
    let m := BasicPatternConverter_mk plat fi BasicType.thread
    (m.1, m.2, rest, pos)
  else if c = 'x' then
    let m := BasicPatternConverter_mk plat fi BasicType.ndc
    (m.1, m.2, rest, pos)
  else
    (LiteralPatternConverter_mk currentLiteral, [Diag.unexpectedCharError c pos], rest, pos)

/-- Flush of a non-empty pending literal buffer into the converter list
(used both when a specifier begins and at end of input). -/
def flushLiteral (cl : List Char) (list : List (Option PatternConverter)) :
    List (Option PatternConverter) :=
  if cl = [] then list else list ++ [some (LiteralPatternConverter_mk cl)]

/-- The `while` loop of `PatternParser::parse`, one character per step.
`rest` is the input from position `pos`; `fuel` bounds the iteration count
(each step consumes at least one character, so the initial fuel
`pattern.length + 1` is never exhausted; at fuel 0 the end-of-input flush
is returned).  States transition exactly as in the C++ switch; MINUS_STATE
has no case there, so it would consume the character with no effect. -/
def parseLoopF (plat : Platform) : Nat → ParserState → FormattingInfo → List Char →
    List (Option PatternConverter) → List Diag → List Char → Nat →
    List (Option PatternConverter) × List Diag
  | 0, _, _, cl, list, diags, _, _ => (flushLiteral cl list, diags)
  | fuel + 1, st, fi, cl, list, diags, rest, pos =>
    match rest with
    | [] => (flushLiteral cl list, diags)
    | c :: rs =>
      match st with
      | ParserState.literalState =>
        match rs with
        | [] =>
          -- the last character of the pattern is always a literal
          parseLoopF plat fuel ParserState.literalState fi (cl ++ [c]) list diags [] (pos + 1)
        | c2 :: rs2 =>
          if c = '%' then
            if c2 = '%' then
              parseLoopF plat fuel ParserState.literalState fi (cl ++ [c]) list diags
                rs2 (pos + 2)
            else if c2 = 'n' then
              parseLoopF plat fuel ParserState.literalState fi (cl ++ ['\n']) list diags
                rs2 (pos + 2)
            else
              parseLoopF plat fuel ParserState.converterState FormattingInfo.reset [c]
                (flushLiteral cl list) diags (c2 :: rs2) (pos + 1)
          else
            parseLoopF plat fuel ParserState.literalState fi (cl ++ [c]) list diags
              (c2 :: rs2) (pos + 1)
      | ParserState.converterState =>
        if c = '-' then
          parseLoopF plat fuel ParserState.converterState { fi with leftAlign := true }
            (cl ++ [c]) list diags rs (pos + 1)
        else if c = '.' then
          parseLoopF plat fuel ParserState.dotState fi (cl ++ [c]) list diags rs (pos + 1)
        else if isDigitChar c then
          parseLoopF plat fuel ParserState.minState { fi with minLen := digitVal c }
            (cl ++ [c]) list diags rs (pos + 1)
        else
          let r := finalizeConverter plat c fi (cl ++ [c]) rs (pos + 1)
          parseLoopF plat fuel ParserState.literalState FormattingInfo.reset []
            (list ++ [some r.1]) (diags ++ r.2.1) r.2.2.1 r.2.2.2
      | ParserState.minusState =>
        parseLoopF plat fuel ParserState.minusState fi cl list diags rs (pos + 1)
      | ParserState.dotState =>
        if isDigitChar c then
          parseLoopF plat fuel ParserState.maxState { fi with maxLen := digitVal c }
            (cl ++ [c]) list diags rs (pos + 1)
        else
          parseLoopF plat fuel ParserState.literalState fi (cl ++ [c]) list
            (diags ++ [Diag.dotStateError (pos + 1) c]) rs (pos + 1)
      | ParserState.minState =>
        if isDigitChar c then
          parseLoopF plat fuel ParserState.minState { fi with minLen := fi.minLen * 10 + digitVal c }
            (cl ++ [c]) list diags rs (pos + 1)
        else if c = '.' then
          parseLoopF plat fuel ParserState.dotState fi (cl ++ [c]) list diags rs (pos + 1)
        else
          let r := finalizeConverter plat c fi (cl ++ [c]) rs (pos + 1)
          parseLoopF plat fuel ParserState.literalState FormattingInfo.reset []
            (list ++ [some r.1]) (diags ++ r.2.1) r.2.2.1 r.2.2.2
      | ParserState.maxState =>
        if isDigitChar c then
          parseLoopF plat fuel ParserState.maxState { fi with maxLen := fi.maxLen * 10 + digitVal c }
            (cl ++ [c]) list diags rs (pos + 1)
        else
          let r := finalizeConverter plat c fi (cl ++ [c]) rs (pos + 1)
          parseLoopF plat fuel ParserState.literalState FormattingInfo.reset []
            (list ++ [some r.1]) (diags ++ r.2.1) r.2.2.1 r.2.2.2

/-- `PatternParser::parse`: run the state machine from the literal state at
position 0 (the parser's vector holds pointers, hence the `Option` slots;
every push is a real converter). -/
def PatternParser_parse (plat : Platform) (pattern : List Char) :
    List (Option PatternConverter) × List Diag :=
  parseLoopF plat (pattern.length + 1) ParserState.literalState FormattingInfo.reset
    [] [] [] pattern 0

/-- One step of the null-slot sanitation loop in `PatternLayout::init`:
a null slot is reported and replaced by an empty literal converter. -/
def sanitizeStep (acc : List PatternConverter × List Diag) (o : Option PatternConverter) :
    List PatternConverter × List Diag :=
  match o with
  | some pc => (acc.1 ++ [pc], acc.2)
  | none => (acc.1 ++ [LiteralPatternConverter_mk []], acc.2 ++ [Diag.nullConverterError])

/-- `PatternLayout::init`: parse the pattern, replace any null slot with an
empty literal converter, and replace an empty result with a single default
message converter (each substitution with a diagnostic). -/
def PatternLayout_init (plat : Platform) (pattern : List Char) :
    List PatternConverter × List Diag :=
  let pr := PatternParser_parse plat pattern
  let s := pr.1.foldl sanitizeStep ([], pr.2)
  if s.1 = [] then
    ([(BasicPatternConverter_mk plat FormattingInfo.reset BasicType.message).1],
     s.2 ++ [Diag.emptyPatternWarn])
  else s

/-- Modelled from the spec: `log4cplus::helpers::Properties` (not under
src/) is a key/value configuration map; `exists(key)` tests for the key and
`getProperty(key)` returns its value. -/
def Properties : Type := List (List Char × List Char)

/-- Modelled from the spec: `Properties::exists`. -/
def Properties.existsKey (props : Properties) (key : List Char) : Bool :=
  (props.find? (fun kv => kv.1 = key)).isSome

/-- Modelled from the spec: `Properties::getProperty` (empty when absent). -/
def Properties.getProperty (props : Properties) (key : List Char) : List Char :=
  ((props.find? (fun kv => kv.1 = key)).map (fun kv => kv.2)).getD []

/-- `PatternLayout::PatternLayout(Properties)`: throw when the `Pattern`
key is absent, else compile the key's value via `init`. -/
def PatternLayout_fromProperties (plat : Platform) (props : Properties) :
    Except (List Char) (List PatternConverter × List Diag) :=
  if Properties.existsKey props ("Pattern".toList) then
    Except.ok (PatternLayout_init plat (Properties.getProperty props ("Pattern".toList)))
  else
    Except.error ("Pattern not specified in properties".toList)

/-- The loop of `PatternLayout::formatAndAppend`: each converter's output in
order, concatenated into the stream (`none` propagates an undefined
division from a relative-time converter). -/
def renderConverters (plat : Platform) (ev : InternalLoggingEvent) :
    List PatternConverter → Option (List Char)
  | [] => some []
  | pc :: rest =>
    match PatternConverter.formatAndAppend plat ev pc, renderConverters plat ev rest with
    | some s, some t => some (s ++ t)
    | _, _ => none

/-- `PatternLayout::formatAndAppend` on a layout built from `pattern`. -/
def PatternLayout_formatAndAppend (plat : Platform) (pattern : List Char)
    (ev : InternalLoggingEvent) : Option (List Char) :=
  renderConverters plat ev (PatternLayout_init plat pattern).1

/-- Spec-side reading of truncation: the last `n` characters of `s`. -/
def lastChars (n : Nat) (s : List Char) : List Char :=
  (s.reverse.take n).reverse

/-- Spec-side reading of the logger-name precision rule: the position of
the `p`-th dot found walking the name right-to-left from index `i`
(`none` when fewer than `p` dots exist at or below `i`). -/
def specNthDotPos (name : List Char) : Nat → Nat → Option Nat
  | 0, p => if name[0]? = some '.' ∧ p ≤ 1 then some 0 else none
  | i + 1, p =>
    if name[i + 1]? = some '.' then
      if p ≤ 1 then some (i + 1) else specNthDotPos name i (p - 1)
    else specNthDotPos name i p

/-- Spec-side logger-name extraction exactly as the claim states it:
precision at most 0 gives the full name; else the suffix one character
past the `precision`-th dot walking right-to-left from the last character;
fewer than `precision` dots gives the full name unchanged. -/
def specLoggerConvert (precision : Int) (name : List Char) : List Char :=
  if precision ≤ 0 then name
  else
    match specNthDotPos name (name.length - 1) precision.toNat with
    | none => name
    | some e => name.drop (e + 1)

/-- A search step of the C++ dot loop starting at index `i` with `p` more
searches to perform afterwards (helper for relating code and spec). -/
def codeSearch (name : List Char) (i : Nat) (p : Nat) : Option Int :=
  match rfindFrom name '.' i with
  | none => none
  | some j => loggerDotLoop name (j : Int) p

/-- A POSIX-like platform for concrete evaluations: millisecond-or-finer
clock, a `strftime` that always fails, a fixed level name. -/
def testPlatform : Platform where
  clocksPerSec := 1000000
  strftime := fun _ _ _ => none
  levelToString := fun _ => "INFO".toList

/-- A platform whose clock is coarser than one millisecond. -/
def coarsePlatform : Platform :=
  { testPlatform with clocksPerSec := 100 }

/-- A concrete logging event. -/
def testEvent : InternalLoggingEvent where
  ll := 20000
  loggerName := "com.acme.Service".toList
  message := "hello".toList
  ndc := []
  thread := "t1".toList
  file := some ("main.cxx".toList)
  line := 42
  clock_ticks := 12345
  timestamp := 0

/-- The concrete event with an absent source line (sentinel -1). -/
def testEventNoLine : InternalLoggingEvent :=
  { testEvent with line := -1 }

/-! ## The width law (C1) -/

theorem lastChars_eq_drop (n : Nat) (s : List Char) : lastChars n s = s.drop (s.length - n) := by
  rw [lastChars, ← List.rtake_eq_reverse_take_reverse]
  rfl

/-- C1: the universal truncation/padding law of
`PatternConverter::formatAndAppend`: a string longer than `maxLen` is cut
to exactly its last `maxLen` characters (a suffix); a string shorter than
`minLen` is padded with spaces to length `minLen`, on the right when
`leftAlign` and on the left otherwise; anything else passes through, and a
`minLen` of -1 never pads. -/
theorem c1_width_law (fi : FormattingInfo) (s : List Char) (hmax : 0 ≤ fi.maxLen) :
    (fi.maxLen < (s.length : Int) →
        applyFormat fi s = lastChars fi.maxLen.toNat s
        ∧ ((applyFormat fi s).length : Int) = fi.maxLen
        ∧ applyFormat fi s <:+ s)
    ∧ ((s.length : Int) ≤ fi.maxLen → (s.length : Int) < fi.minLen →
        applyFormat fi s =
          (if fi.leftAlign then s ++ List.replicate (fi.minLen - (s.length : Int)).toNat ' '
           else List.replicate (fi.minLen - (s.length : Int)).toNat ' ' ++ s)
        ∧ ((applyFormat fi s).length : Int) = fi.minLen)
    ∧ ((s.length : Int) ≤ fi.maxLen → fi.minLen ≤ (s.length : Int) → applyFormat fi s = s)
    ∧ (fi.minLen = -1 → applyFormat fi s = s ∨ applyFormat fi s = lastChars fi.maxLen.toNat s) := by
  refine ⟨?_, ?_, ?_, ?_⟩
  · intro h
    have e1 : applyFormat fi s = s.drop ((s.length : Int) - fi.maxLen).toNat := by
      unfold applyFormat
      rw [if_pos h]
    refine ⟨?_, ?_, ?_⟩
    · rw [e1, lastChars_eq_drop]
      congr 1
      omega
    · rw [e1, List.length_drop]
      omega
    · rw [e1]
      exact List.drop_suffix _ _
  · intro h1 h2
    have e2 : applyFormat fi s =
        (if fi.leftAlign then s ++ List.replicate (fi.minLen - (s.length : Int)).toNat ' '
         else List.replicate (fi.minLen - (s.length : Int)).toNat ' ' ++ s) := by
      unfold applyFormat
      rw [if_neg (by omega), if_pos h2]
    refine ⟨e2, ?_⟩
    rw [e2]
    by_cases hl : fi.leftAlign <;>
      simp [hl, List.length_append, List.length_replicate] <;> omega
  · intro h1 h2
    unfold applyFormat
    rw [if_neg (by omega), if_neg (by omega)]
  · intro hm
    by_cases hh : fi.maxLen < (s.length : Int)
    · refine Or.inr ?_
      unfold applyFormat
      rw [if_pos hh, lastChars_eq_drop]
      congr 1
      omega
    · refine Or.inl ?_
      unfold applyFormat
      rw [if_neg (by omega), if_neg (by omega)]

theorem c1_width_law_witness :
    (0 : Int) ≤ (3 : Int)
    ∧ applyFormat ⟨-1, 3, false⟩ ("hello".toList) = lastChars ((3 : Int)).toNat ("hello".toList) :=
  ⟨by decide, ((c1_width_law ⟨-1, 3, false⟩ ("hello".toList) (by decide)).1 (by decide)).1⟩

/-! ## Logger-name precision (C2) -/

theorem rfindFrom_eq_spec1 (name : List Char) (i : Nat) :
    rfindFrom name '.' i = specNthDotPos name i 1 := by
  induction i with
  | zero =>
    simp only [rfindFrom, specNthDotPos]
    by_cases h : name[0]? = some '.' <;> simp [h]
  | succ i ih =>
    simp only [rfindFrom, specNthDotPos]
    by_cases h : name[i + 1]? = some '.' <;> simp [h, ih]

theorem spec_chain (name : List Char) (p : Nat) (i : Nat) :
    specNthDotPos name i (p + 2) =
      (match rfindFrom name '.' i with
       | none => none
       | some j => if j = 0 then none else specNthDotPos name (j - 1) (p + 1)) := by
  induction i with
  | zero =>
    simp only [specNthDotPos, rfindFrom]
    by_cases h : name[0]? = some '.' <;> simp [h]
  | succ i ih =>
    simp only [specNthDotPos, rfindFrom]
    by_cases h : name[i + 1]? = some '.' <;> simp [h, ih]

theorem rfindFrom_some (name : List Char) (c : Char) (i : Nat) :
    ∀ j, rfindFrom name c i = some j → name[j]? = some c ∧ j ≤ i := by
  induction i with
  | zero =>
    intro j h
    by_cases hc : name[0]? = some c <;> simp [rfindFrom, hc] at h
    exact ⟨h ▸ hc, by omega⟩
  | succ i ih =>
    intro j h
    by_cases hc : name[i + 1]? = some c
    · simp [rfindFrom, hc] at h
      exact ⟨h ▸ hc, by omega⟩
    · simp only [rfindFrom, if_neg hc] at h
      obtain ⟨h1, h2⟩ := ih j h
      exact ⟨h1, by omega⟩

theorem getElem?_lt_of_eq_some {name : List Char} {j : Nat} {c : Char}
    (h : name[j]? = some c) : j < name.length := by
  by_contra hx
  rw [List.getElem?_eq_none (by omega)] at h
  exact Option.noConfusion h

theorem codeSearch_eq_spec (name : List Char) (h0 : name[0]? ≠ some '.') (p : Nat) :
    ∀ i, codeSearch name i p = (specNthDotPos name i (p + 1)).map (fun n => (n : Int)) := by
  induction p with
  | zero =>
    intro i
    have l1 := rfindFrom_eq_spec1 name i
    cases h : rfindFrom name '.' i <;> rw [h] at l1 <;>
      simp [codeSearch, h, ← l1, loggerDotLoop]
  | succ p ih =>
    intro i
    have l2 := spec_chain name p i
    cases h : rfindFrom name '.' i with
    | none =>
      rw [h] at l2
      simp [codeSearch, h, l2]
    | some j =>
      obtain ⟨hj, hji⟩ := rfindFrom_some name '.' i j h
      have hj0 : j ≠ 0 := fun e => h0 (e ▸ hj)
      have hjlen : j < name.length := getElem?_lt_of_eq_some hj
      have l2' : specNthDotPos name i (p + 2) = specNthDotPos name (j - 1) (p + 1) := by
        rw [l2, h]
        exact if_neg hj0
      have hsr : strRfind name '.' ((j : Int) - 1) = rfindFrom name '.' (j - 1) := by
        unfold strRfind
        rw [if_neg (by exact List.ne_nil_of_length_pos (by omega)), if_neg (by omega)]
        congr 1
        omega
      have hcode : codeSearch name i (p + 1) = codeSearch name (j - 1) p := by
        unfold codeSearch
        rw [h]
        simp only [loggerDotLoop]
        rw [hsr]
      show codeSearch name i (p + 1) = (specNthDotPos name i (p + 2)).map (fun n => (n : Int))
      rw [hcode, ih (j - 1), l2']

/-- C2 counterexample: for the name `"a."` with precision 1 the code
returns `"a."` (the search starts one character before the end, so the
trailing dot is never counted), while the claim's right-to-left rule
demands the empty suffix after that trailing dot. -/
theorem c2_counterexample :
    LoggerPatternConverter_convert 1 ("a.".toList) ≠ specLoggerConvert 1 ("a.".toList) := by
  decide

/-- C2 (amended): for names that neither start nor end with a dot,
`LoggerPatternConverter::convert` agrees with the claim's rule: precision
at most 0 gives the full name, else the suffix one character past the
precision-th dot walking right-to-left, the full name when fewer dots
exist.  (A trailing dot is never counted because the search starts at the
second-to-last character, and a leading dot makes the C++ `end - 1` wrap
through `size_t`, recounting dots; both cases diverge from the rule.) -/
theorem c2_logger_precision_amended (precision : Int) (name : List Char)
    (h0 : name[0]? ≠ some '.') (hlast : name[name.length - 1]? ≠ some '.') :
    LoggerPatternConverter_convert precision name = specLoggerConvert precision name := by
  by_cases hp : precision ≤ 0
  · unfold LoggerPatternConverter_convert specLoggerConvert
    rw [if_pos hp, if_pos hp]
  · obtain ⟨q, hq⟩ : ∃ q, precision.toNat = q + 1 := ⟨precision.toNat - 1, by omega⟩
    unfold LoggerPatternConverter_convert specLoggerConvert
    rw [if_neg hp, if_neg hp, hq]
    rcases hname : name with _ | ⟨ch, tl⟩
    · simp [loggerDotLoop, strRfind, specNthDotPos]
    · rw [← hname]
      have hlen : 1 ≤ name.length := by rw [hname]; simp
      have hnn : name ≠ [] := by rw [hname]; exact List.cons_ne_nil _ _
      have code_eq : ∀ i0, specNthDotPos name (name.length - 1) (q + 1) = specNthDotPos name i0 (q + 1) →
          strRfind name '.' ((name.length : Int) - 1 - 1) = rfindFrom name '.' i0 →
          (match loggerDotLoop name ((name.length : Int) - 1) (q + 1) with
            | none => name
            | some e => name.drop (e + 1).toNat) =
          (match specNthDotPos name (name.length - 1) (q + 1) with
            | none => name
            | some e => name.drop (e + 1)) := by
        intro i0 hspec hsr
        have hl : loggerDotLoop name ((name.length : Int) - 1) (q + 1) = codeSearch name i0 q := by
          simp only [loggerDotLoop]
          rw [hsr]
          rfl
        rw [hl, codeSearch_eq_spec name h0 q i0, ← hspec]
        cases hsp : specNthDotPos name (name.length - 1) (q + 1) with
        | none => simp
        | some n =>
          simp only [Option.map_some]
          congr 1
      rcases Nat.lt_or_ge name.length 2 with hl2 | hl2
      · have hl1 : name.length = 1 := by omega
        refine code_eq 0 (by rw [hl1]) ?_
        unfold strRfind
        rw [if_neg hnn, if_pos (by omega)]
        rw [hl1]
      · obtain ⟨k, hk⟩ : ∃ k, name.length - 1 = k + 1 := ⟨name.length - 2, by omega⟩
        refine code_eq k ?_ ?_
        · rw [hk]
          simp only [specNthDotPos]
          rw [if_neg (by rw [← hk]; exact hlast)]
        · unfold strRfind
          rw [if_neg hnn, if_neg (by omega)]
          congr 1
          omega

theorem c2_logger_precision_witness :
    (("a.b.c.d".toList)[0]? ≠ some '.')
    ∧ (("a.b.c.d".toList)[("a.b.c.d".toList).length - 1]? ≠ some '.')
    ∧ LoggerPatternConverter_convert 2 ("a.b.c.d".toList) = specLoggerConvert 2 ("a.b.c.d".toList) :=
  ⟨by decide, by decide,
   c2_logger_precision_amended 2 ("a.b.c.d".toList) (by decide) (by decide)⟩

/-! ## Full location with absent line (C10) -/

/-- C10: when the event carries a file name but the absent-line sentinel
-1, the full-location converter prints `file:-1` (the sentinel is printed,
not suppressed) while the standalone line converter yields the empty
string. -/
theorem c10_full_location (plat : Platform) (ev : InternalLoggingEvent) (f : List Char)
    (hf : ev.file = some f) (hl : ev.line = -1) :
    BasicPatternConverter_convert plat BasicType.fullLocation ev
      = some (f ++ ':' :: ("-1".toList))
    ∧ BasicPatternConverter_convert plat BasicType.line ev = some [] := by
  constructor
  · simp only [BasicPatternConverter_convert, hf]
    have h1 : intToString ev.line = "-1".toList := by rw [hl]; decide
    rw [h1]
  · simp [BasicPatternConverter_convert, hl]

theorem c10_full_location_witness :
    testEventNoLine.file = some ("main.cxx".toList)
    ∧ testEventNoLine.line = -1
    ∧ BasicPatternConverter_convert testPlatform BasicType.fullLocation testEventNoLine
        = some (("main.cxx".toList) ++ ':' :: ("-1".toList))
    ∧ BasicPatternConverter_convert testPlatform BasicType.line testEventNoLine = some [] := by
  have h := c10_full_location testPlatform testEventNoLine ("main.cxx".toList)
    (by decide) (by decide)
  exact ⟨by decide, by decide, h.1, h.2⟩

/-! ## Construction from a configuration map (C8) -/

/-- C8: constructing a layout from a configuration map without the
`Pattern` key throws (no layout is produced); with the key present the
construction compiles the key's value. -/
theorem c8_properties_pattern (plat : Platform) (props : Properties) :
    (Properties.existsKey props ("Pattern".toList) = false →
      PatternLayout_fromProperties plat props
        = Except.error ("Pattern not specified in properties".toList))
    ∧ (Properties.existsKey props ("Pattern".toList) = true →
      PatternLayout_fromProperties plat props
        = Except.ok (PatternLayout_init plat (Properties.getProperty props ("Pattern".toList)))) := by
  constructor
  · intro h
    unfold PatternLayout_fromProperties
    rw [if_neg (by rw [h]; exact Bool.false_ne_true)]
  · intro h
    unfold PatternLayout_fromProperties
    rw [if_pos h]

theorem c8_properties_pattern_witness :
    (Properties.existsKey ([] : Properties) ("Pattern".toList) = false
      ∧ PatternLayout_fromProperties testPlatform ([] : Properties)
          = Except.error ("Pattern not specified in properties".toList))
    ∧ (Properties.existsKey ([("Pattern".toList, "%m".toList)] : Properties) ("Pattern".toList) = true
      ∧ PatternLayout_fromProperties testPlatform ([("Pattern".toList, "%m".toList)] : Properties)
          = Except.ok (PatternLayout_init testPlatform
              (Properties.getProperty ([("Pattern".toList, "%m".toList)] : Properties) ("Pattern".toList)))) :=
  ⟨⟨by decide, (c8_properties_pattern testPlatform ([] : Properties)).1 (by decide)⟩,
   ⟨by decide,
    (c8_properties_pattern testPlatform ([("Pattern".toList, "%m".toList)] : Properties)).2 (by decide)⟩⟩

/-! ## Date formatting failure (C6) -/

theorem renderConverters_append (plat : Platform) (ev : InternalLoggingEvent)
    (l1 l2 : List PatternConverter) (o1 o2 : List Char)
    (h1 : renderConverters plat ev l1 = some o1)
    (h2 : renderConverters plat ev l2 = some o2) :
    renderConverters plat ev (l1 ++ l2) = some (o1 ++ o2) := by
  induction l1 generalizing o1 with
  | nil =>
    simp only [renderConverters] at h1
    obtain rfl : o1 = [] := by injection h1 with h; exact h.symm
    simpa using h2
  | cons pc rest ih =>
    simp only [renderConverters] at h1
    cases hpc : PatternConverter.formatAndAppend plat ev pc with
    | none => rw [hpc] at h1; exact Option.noConfusion h1
    | some s =>
      rw [hpc] at h1
      cases hrest : renderConverters plat ev rest with
      | none => rw [hrest] at h1; exact Option.noConfusion h1
      | some t =>
        rw [hrest] at h1
        have hst : s ++ t = o1 := by injection h1
        rw [List.cons_append]
        simp only [renderConverters, hpc, ih t hrest]
        rw [← hst, List.append_assoc]

/-- C6: when `strftime` fails for an event, the date converter's extraction
is exactly the literal `"INVALID DATE PATTERN"`, the render does not crash,
and the other converters of the same render pass are unaffected (the pass
is the concatenation of their unchanged outputs around the fallback). -/
theorem c6_date_failure (plat : Platform) (ev : InternalLoggingEvent) (fi : FormattingInfo)
    (fmt : List Char) (gm : Bool) (l1 l2 : List PatternConverter) (o1 o2 : List Char)
    (hfail : plat.strftime fmt gm ev.timestamp = none)
    (h1 : renderConverters plat ev l1 = some o1)
    (h2 : renderConverters plat ev l2 = some o2) :
    PatternConverter.convert plat ev (PatternConverter.date fi fmt gm)
      = some ("INVALID DATE PATTERN".toList)
    ∧ renderConverters plat ev (l1 ++ PatternConverter.date fi fmt gm :: l2)
      = some (o1 ++ (applyFormat fi ("INVALID DATE PATTERN".toList) ++ o2)) := by
  have hc : PatternConverter.convert plat ev (PatternConverter.date fi fmt gm)
      = some ("INVALID DATE PATTERN".toList) := by
    simp [PatternConverter.convert, DatePatternConverter_convert, hfail]
  refine ⟨hc, ?_⟩
  have hmid : renderConverters plat ev (PatternConverter.date fi fmt gm :: l2)
      = some (applyFormat fi ("INVALID DATE PATTERN".toList) ++ o2) := by
    simp [renderConverters, PatternConverter.formatAndAppend, hc, PatternConverter.info, h2]
  exact renderConverters_append plat ev l1 _ o1 _ h1 hmid

theorem c6_date_failure_witness :
    testPlatform.strftime ("%Y".toList) true testEvent.timestamp = none
    ∧ renderConverters testPlatform testEvent [LiteralPatternConverter_mk ("a".toList)]
        = some ("a".toList)
    ∧ renderConverters testPlatform testEvent [LiteralPatternConverter_mk ("b".toList)]
        = some ("b".toList)
    ∧ renderConverters testPlatform testEvent
        ([LiteralPatternConverter_mk ("a".toList)]
          ++ PatternConverter.date FormattingInfo.reset ("%Y".toList) true
            :: [LiteralPatternConverter_mk ("b".toList)])
        = some ("a".toList ++ (applyFormat FormattingInfo.reset ("INVALID DATE PATTERN".toList)
            ++ "b".toList)) :=
  ⟨rfl, by decide, by decide,
   (c6_date_failure testPlatform testEvent FormattingInfo.reset ("%Y".toList) true
      [LiteralPatternConverter_mk ("a".toList)] [LiteralPatternConverter_mk ("b".toList)]
      ("a".toList) ("b".toList) rfl (by decide) (by decide)).2⟩

/-! ## Relative time (C5) -/

/-- C5 counterexample: on a platform whose clock is coarser than one
millisecond (100 ticks per second) the stored ticks-per-millisecond divisor
is 0, so the rendering division is not well-defined (undefined behaviour in
the C++), contradicting "the divisor is nonzero, so rendering never
crashes". -/
theorem c5_counterexample :
    CLOCKS_PER_MILLIS coarsePlatform = 0
    ∧ BasicPatternConverter_convert coarsePlatform BasicType.relativeTime testEvent = none := by
  exact ⟨by decide, by decide⟩

/-- C5 (amended): the constructor emits the diagnostic exactly when the
platform clock is coarser than one millisecond (and construction still
succeeds); when the platform has at least `MILLIS_PER_SEC` ticks per second
the divisor is nonzero and the extraction is the tick counter divided by
the ticks-per-millisecond value; on coarser platforms the divisor is zero
and the division is undefined. -/
theorem c5_relative_time_amended (plat : Platform) (fi : FormattingInfo)
    (ev : InternalLoggingEvent) :
    ((BasicPatternConverter_mk plat fi BasicType.relativeTime).2 ≠ []
        ↔ plat.clocksPerSec < MILLIS_PER_SEC)
    ∧ (MILLIS_PER_SEC ≤ plat.clocksPerSec →
        CLOCKS_PER_MILLIS plat ≠ 0
        ∧ BasicPatternConverter_convert plat BasicType.relativeTime ev
            = some (intToString (Int.tdiv ev.clock_ticks (CLOCKS_PER_MILLIS plat)))) := by
  constructor
  · simp only [BasicPatternConverter_mk]
    by_cases h : plat.clocksPerSec < MILLIS_PER_SEC <;> simp [h]
  · intro h
    have hnz : CLOCKS_PER_MILLIS plat ≠ 0 := by
      unfold CLOCKS_PER_MILLIS MILLIS_PER_SEC
      unfold MILLIS_PER_SEC at h
      obtain ⟨n, hn⟩ : ∃ n : Nat, plat.clocksPerSec = (n : Int) :=
        ⟨plat.clocksPerSec.toNat, by omega⟩
      rw [hn]
      have e : (n : Int).tdiv 1000 = ((n / 1000 : Nat) : Int) := rfl
      rw [e]
      rw [hn] at h
      omega
    exact ⟨hnz, by simp [BasicPatternConverter_convert, hnz]⟩

theorem c5_relative_time_witness :
    MILLIS_PER_SEC ≤ testPlatform.clocksPerSec
    ∧ BasicPatternConverter_convert testPlatform BasicType.relativeTime testEvent
        = some (intToString (Int.tdiv testEvent.clock_ticks (CLOCKS_PER_MILLIS testPlatform))) :=
  ⟨by decide,
   ((c5_relative_time_amended testPlatform FormattingInfo.reset testEvent).2 (by decide)).2⟩

/-! ## The compiled sequence is always renderable (C7) -/

theorem flushLiteral_isSome (cl : List Char) (l : List (Option PatternConverter))
    (hl : ∀ o ∈ l, o.isSome = true) : ∀ o ∈ flushLiteral cl l, o.isSome = true := by
  intro o ho
  unfold flushLiteral at ho
  by_cases h : cl = []
  · rw [if_pos h] at ho
    exact hl o ho
  · rw [if_neg h] at ho
    rcases List.mem_append.1 ho with h1 | h1
    · exact hl o h1
    · rw [List.mem_singleton.1 h1]
      rfl

theorem parseLoopF_isSome (plat : Platform) (fuel : Nat) :
    ∀ st fi cl list diags rest pos, (∀ o ∈ list, o.isSome = true) →
      ∀ o ∈ (parseLoopF plat fuel st fi cl list diags rest pos).1, o.isSome = true := by
  induction fuel with
  | zero =>
    intro st fi cl list diags rest pos hl o ho
    exact flushLiteral_isSome _ _ hl o ho
  | succ fuel ih =>
    intro st fi cl list diags rest pos hl
    cases rest with
    | nil =>
      intro o ho
      exact flushLiteral_isSome _ _ hl o ho
    | cons c rs =>
      have happ : ∀ o ∈ list ++ [some (finalizeConverter plat c fi (cl ++ [c]) rs (pos + 1)).1],
          o.isSome = true := by
        intro o ho
        rcases List.mem_append.1 ho with h1 | h1
        · exact hl o h1
        · rw [List.mem_singleton.1 h1]
          rfl
      cases st with
      | literalState =>
        cases rs with
        | nil =>
          simp only [parseLoopF]
          exact ih _ _ _ _ _ _ _ hl
        | cons c2 rs2 =>
          simp only [parseLoopF]
          split_ifs with h1 h2 h3
          · exact ih _ _ _ _ _ _ _ hl
          · exact ih _ _ _ _ _ _ _ hl
          · exact ih _ _ _ _ _ _ _ (flushLiteral_isSome _ _ hl)
          · exact ih _ _ _ _ _ _ _ hl
      | converterState =>
        simp only [parseLoopF]
        split_ifs with h1 h2 h3
        · exact ih _ _ _ _ _ _ _ hl
        · exact ih _ _ _ _ _ _ _ hl
        · exact ih _ _ _ _ _ _ _ hl
        · exact ih _ _ _ _ _ _ _ happ
      | minusState =>
        simp only [parseLoopF]
        exact ih _ _ _ _ _ _ _ hl
      | dotState =>
        simp only [parseLoopF]
        split_ifs with h1
        · exact ih _ _ _ _ _ _ _ hl
        · exact ih _ _ _ _ _ _ _ hl
      | minState =>
        simp only [parseLoopF]
        split_ifs with h1 h2
        · exact ih _ _ _ _ _ _ _ hl
        · exact ih _ _ _ _ _ _ _ hl
        · exact ih _ _ _ _ _ _ _ happ
      | maxState =>
        simp only [parseLoopF]
        split_ifs with h1
        · exact ih _ _ _ _ _ _ _ hl
        · exact ih _ _ _ _ _ _ _ happ

/-- C7: after `PatternLayout::init` the compiled sequence is a valid
rendering sequence: it is never empty, the parser in fact never produces a
null slot, and an empty parse result is replaced by the single default
message converter together with its diagnostic warning. -/
theorem c7_init_nonempty (plat : Platform) (pattern : List Char) :
    (PatternLayout_init plat pattern).1 ≠ []
    ∧ (∀ o ∈ (PatternParser_parse plat pattern).1, o.isSome = true)
    ∧ ((PatternParser_parse plat pattern).1 = [] →
        (PatternLayout_init plat pattern).1
          = [(BasicPatternConverter_mk plat FormattingInfo.reset BasicType.message).1]
        ∧ Diag.emptyPatternWarn ∈ (PatternLayout_init plat pattern).2) := by
  refine ⟨?_, ?_, ?_⟩
  · simp only [PatternLayout_init]
    split_ifs with h
    · simp
    · exact h
  · intro o ho
    exact parseLoopF_isSome plat _ _ _ _ _ _ _ _ (by simp) o ho
  · intro h
    simp only [PatternLayout_init]
    rw [h]
    simp [List.foldl]

theorem c7_init_nonempty_witness :
    ((PatternParser_parse testPlatform []).1 = [])
    ∧ (PatternLayout_init testPlatform []).1
        = [(BasicPatternConverter_mk testPlatform FormattingInfo.reset BasicType.message).1]
    ∧ Diag.emptyPatternWarn ∈ (PatternLayout_init testPlatform []).2 :=
  ⟨by decide, ((c7_init_nonempty testPlatform []).2.2 (by decide)).1,
   ((c7_init_nonempty testPlatform []).2.2 (by decide)).2⟩

/-! ## Parser runs over literal text (C9, C4, C3) -/

theorem parseLoopF_literal_run (plat : Platform) (t : List Char) (ht : '%' ∉ t) :
    ∀ (fuel : Nat) (fi : FormattingInfo) (cl : List Char)
      (list : List (Option PatternConverter)) (diags : List Diag) (r : List Char) (pos : Nat),
      parseLoopF plat (fuel + t.length) ParserState.literalState fi cl list diags (t ++ r) pos
        = parseLoopF plat fuel ParserState.literalState fi (cl ++ t) list diags r
            (pos + t.length) := by
  induction t with
  | nil =>
    intro fuel fi cl list diags r pos
    simp
  | cons c ts ih =>
    intro fuel fi cl list diags r pos
    have hc : c ≠ '%' := by
      intro e
      exact ht (by rw [← e]; exact List.mem_cons_self c ts)
    have hts : '%' ∉ ts := by
      intro hx
      exact ht (List.mem_cons_of_mem c hx)
    rw [show fuel + (c :: ts).length = (fuel + ts.length) + 1 from by
      simp only [List.length_cons]; omega]
    rw [List.cons_append]
    cases hrs : ts ++ r with
    | nil =>
      obtain ⟨hts0, hr0⟩ := List.append_eq_nil.1 hrs
      subst hts0
      subst hr0
      simp only [parseLoopF]
      simp
    | cons c2 rs2 =>
      simp only [parseLoopF]
      rw [if_neg hc, ← hrs, ih hts fuel fi (cl ++ [c]) list diags r (pos + 1)]
      rw [show (cl ++ [c]) ++ ts = cl ++ c :: ts from by simp]
      rw [show pos + 1 + ts.length = pos + (c :: ts).length from by
        simp only [List.length_cons]; omega]

theorem parseLoopF_literal_tail (plat : Platform) (t : List Char) (ht : '%' ∉ t) :
    ∀ (k : Nat) (fi : FormattingInfo) (cl : List Char) (list : List (Option PatternConverter))
      (diags : List Diag) (pos : Nat),
      parseLoopF plat ((k + 1) + t.length) ParserState.literalState fi cl list diags t pos
        = (flushLiteral (cl ++ t) list, diags) := by
  intro k fi cl list diags pos
  have e := parseLoopF_literal_run plat t ht (k + 1) fi cl list diags [] pos
  rw [List.append_nil] at e
  rw [e]
  simp only [parseLoopF]

theorem parse_nopercent (plat : Platform) (pattern : List Char) (h : '%' ∉ pattern) :
    PatternParser_parse plat pattern = (flushLiteral pattern [], []) := by
  unfold PatternParser_parse
  rw [show pattern.length + 1 = (0 + 1) + pattern.length from by omega]
  rw [parseLoopF_literal_tail plat pattern h 0]
  simp

theorem parse_escape (plat : Platform) (t1 t2 : List Char) (h1 : '%' ∉ t1) (h2 : '%' ∉ t2)
    (c2 esc : Char) (hcase : (c2 = '%' ∧ esc = '%') ∨ (c2 = 'n' ∧ esc = '\n')) :
    PatternParser_parse plat (t1 ++ '%' :: c2 :: t2)
      = ([some (LiteralPatternConverter_mk (t1 ++ esc :: t2))], []) := by
  unfold PatternParser_parse
  have e1 := parseLoopF_literal_run plat t1 h1 (((1 + 1) + t2.length) + 1) FormattingInfo.reset
    [] [] [] ('%' :: c2 :: t2) 0
  rw [show (t1 ++ '%' :: c2 :: t2).length + 1 = ((((1 + 1) + t2.length) + 1) + t1.length) from by
    simp only [List.length_append, List.length_cons]; omega]
  rw [e1]
  simp only [List.nil_append, Nat.zero_add]
  rcases hcase with ⟨hc2, hesc⟩ | ⟨hc2, hesc⟩ <;> subst hc2 <;> subst hesc
  · simp only [parseLoopF, if_true]
    rw [parseLoopF_literal_tail plat t2 h2 1]
    simp [flushLiteral, List.append_assoc]
  · simp only [parseLoopF, if_true]
    rw [if_neg (show ¬('n' = '%') from by decide)]
    rw [parseLoopF_literal_tail plat t2 h2 1]
    simp [flushLiteral, List.append_assoc]

theorem init_of_single (plat : Platform) (pattern s : List Char)
    (hp : PatternParser_parse plat pattern = ([some (LiteralPatternConverter_mk s)], [])) :
    PatternLayout_init plat pattern = ([LiteralPatternConverter_mk s], []) := by
  simp only [PatternLayout_init]
  rw [hp]
  simp [sanitizeStep]

theorem applyFormat_reset (s : List Char) (hlen : (s.length : Int) ≤ 0x7FFFFFFF) :
    applyFormat FormattingInfo.reset s = s := by
  have h1 : ¬((s.length : Int) > FormattingInfo.reset.maxLen) := by
    simp only [FormattingInfo.reset]
    omega
  have h2 : ¬((s.length : Int) < FormattingInfo.reset.minLen) := by
    simp only [FormattingInfo.reset]
    omega
  unfold applyFormat
  rw [if_neg h1, if_neg h2]

theorem render_single_literal (plat : Platform) (ev : InternalLoggingEvent) (s : List Char)
    (hlen : (s.length : Int) ≤ 0x7FFFFFFF) :
    renderConverters plat ev [LiteralPatternConverter_mk s] = some s := by
  simp [renderConverters, PatternConverter.formatAndAppend, PatternConverter.convert,
    LiteralPatternConverter_mk, PatternConverter.info, applyFormat_reset s hlen]

/-! ## Literal-only patterns (C9) -/

/-- C9 counterexample: the empty pattern contains no percent sign, yet the
layout built from it does not render the empty pattern text: the empty
compiled sequence is replaced by the default message converter, so the
output is the event's message. -/
theorem c9_counterexample :
    PatternLayout_formatAndAppend testPlatform [] testEvent = some ("hello".toList)
    ∧ ("hello".toList : List Char) ≠ [] :=
  ⟨by decide, by decide⟩

/-- C9 (amended): for every non-empty pattern containing no percent sign
(of length at most the default `maxLen` bound 0x7FFFFFFF), rendering any
event through the compiled layout yields exactly the pattern text,
newlines included. -/
theorem c9_literal_pattern_amended (plat : Platform) (ev : InternalLoggingEvent)
    (pattern : List Char) (hne : pattern ≠ []) (h : '%' ∉ pattern)
    (hlen : (pattern.length : Int) ≤ 0x7FFFFFFF) :
    PatternLayout_formatAndAppend plat pattern ev = some pattern := by
  unfold PatternLayout_formatAndAppend
  rw [init_of_single plat pattern pattern (by
    rw [parse_nopercent plat pattern h]
    unfold flushLiteral
    rw [if_neg hne]
    simp)]
  exact render_single_literal plat ev pattern hlen

theorem c9_literal_pattern_witness :
    (("a\nb".toList : List Char) ≠ [])
    ∧ ('%' ∉ ("a\nb".toList : List Char))
    ∧ ((("a\nb".toList : List Char).length : Int) ≤ 0x7FFFFFFF)
    ∧ PatternLayout_formatAndAppend testPlatform ("a\nb".toList) testEvent
        = some ("a\nb".toList) :=
  ⟨by decide, by decide, by decide,
   c9_literal_pattern_amended testPlatform testEvent ("a\nb".toList)
     (by decide) (by decide) (by decide)⟩

/-! ## Escape sequences (C4) -/

/-- C4 counterexample: the pattern `"%5%n"` contains one textual occurrence
of `"%n"`, yet the rendered output (for any event; a concrete one is used)
is the literal text `"%5%n"` containing no newline at all: the first `'%'`
opens a specifier, the width digit `5` accumulates, and the second `'%'`
is consumed as an unrecognized conversion character, so the trailing
`'n'` is never treated as an escape. -/
theorem c4_counterexample :
    (['%', 'n'] : List Char) <:+: ("%5%n".toList : List Char)
    ∧ PatternLayout_formatAndAppend testPlatform ("%5%n".toList) testEvent
        = some ("%5%n".toList)
    ∧ '\n' ∉ ("%5%n".toList : List Char) :=
  ⟨by decide, by decide, by decide⟩

/-- C4 (amended): `%%` renders as a single literal `%`, and `%n` as a
single newline, when the escape is processed in literal context; in a
pattern whose only percent signs are the escape pair itself this holds for
every event (a `'%'` or `'n'` that instead terminates an in-progress
width-modifier specifier is consumed as that specifier's conversion
character and does not collapse). -/
theorem c4_escape_amended (plat : Platform) (ev : InternalLoggingEvent)
    (t1 t2 : List Char) (h1 : '%' ∉ t1) (h2 : '%' ∉ t2)
    (hlen : ((t1.length + t2.length + 1 : Nat) : Int) ≤ 0x7FFFFFFF) :
    PatternLayout_formatAndAppend plat (t1 ++ '%' :: '%' :: t2) ev = some (t1 ++ '%' :: t2)
    ∧ PatternLayout_formatAndAppend plat (t1 ++ '%' :: 'n' :: t2) ev
        = some (t1 ++ '\n' :: t2) := by
  constructor
  · unfold PatternLayout_formatAndAppend
    rw [init_of_single plat _ _ (parse_escape plat t1 t2 h1 h2 '%' '%' (Or.inl ⟨rfl, rfl⟩))]
    refine render_single_literal plat ev _ ?_
    simp only [List.length_append, List.length_cons]
    omega
  · unfold PatternLayout_formatAndAppend
    rw [init_of_single plat _ _ (parse_escape plat t1 t2 h1 h2 'n' '\n' (Or.inr ⟨rfl, rfl⟩))]
    refine render_single_literal plat ev _ ?_
    simp only [List.length_append, List.length_cons]
    omega

theorem c4_escape_witness :
    ('%' ∉ ("a".toList : List Char))
    ∧ ('%' ∉ ("b".toList : List Char))
    ∧ ((((("a".toList : List Char)).length + (("b".toList : List Char)).length + 1 : Nat) : Int)
        ≤ 0x7FFFFFFF)
    ∧ PatternLayout_formatAndAppend testPlatform (("a".toList) ++ '%' :: '%' :: ("b".toList))
        testEvent = some (("a".toList) ++ '%' :: ("b".toList))
    ∧ PatternLayout_formatAndAppend testPlatform (("a".toList) ++ '%' :: 'n' :: ("b".toList))
        testEvent = some (("a".toList) ++ '\n' :: ("b".toList)) := by
  have h := c4_escape_amended testPlatform testEvent ("a".toList) ("b".toList)
    (by decide) (by decide) (by decide)
  exact ⟨by decide, by decide, by decide, h.1, h.2⟩

/-! ## The malformed pattern "%.x" (C3) -/

/-- C3 counterexample: compiling `"%.x"` does produce a converter covering
that fragment — the malformed text stays in the literal buffer and is
flushed as a Literal converter — so "produces no converter for that
fragment" fails. -/
theorem c3_counterexample :
    (PatternParser_parse testPlatform ("%.x".toList)).1 ≠ [] := by
  decide

/-- C3 (amended): compiling `"%.x"` emits exactly one diagnostic (the
dot-state error naming the offending character `'x'` at position 3),
abandons the in-progress specifier (no specifier converter is created) and
reverts to the literal state without throwing (the parse is total); the
accumulated raw text remains in the literal buffer and is flushed at end
of input as a single Literal converter carrying `"%.x"`. -/
theorem c3_malformed_dot_amended (plat : Platform) :
    PatternParser_parse plat ("%.x".toList)
      = ([some (LiteralPatternConverter_mk ("%.x".toList))], [Diag.dotStateError 3 'x']) := by
  rfl
